import Mathlib

/-!
Verification of the valync async-state container against its source.

The definitions below are a shallow embedding of the TypeScript source:
the core module (normalizeKey, AsyncValue, ApiResponse, AsyncObserver)
and the react/vue binding logic (doFetch with retry and cancellation,
fetchFn, setData, initial-state seeding, header merging).
-/

namespace Valync

/-- Error information carried by failed states, mirroring the source shape
with fields name, message and an optional numeric-or-string code. -/
inductive ErrCode where
  | num (n : Nat)
  | str (s : String)
deriving DecidableEq

structure ErrorInfo where
  name : String
  message : String
  code : Option ErrCode
deriving DecidableEq

/-- AsyncValue from the core module: AsyncLoading, AsyncError with an error,
AsyncData wrapping an Option value (Some or None). -/
inductive AsyncValue (α : Type) where
  | loading
  | error (e : ErrorInfo)
  | data (v : Option α)
deriving DecidableEq

/-- ApiResponse envelope from the core module: success with data or
failed with a structured error. -/
inductive ApiResponse (α : Type) where
  | success (data : α)
  | failed (error : ErrorInfo)
deriving DecidableEq

/-- CacheKey from the core module: a plain string, or a structured object
with a url field and remaining properties as parameters.  The parameter
list records the insertion order of the object properties, which is the
order JavaScript enumerates them in. -/
inductive CacheKey where
  | str (s : String)
  | obj (url : String) (params : List (String × String))
deriving DecidableEq

/-- Hexadecimal digit character for a value below 16, uppercase. -/
def hexDigit (n : Nat) : Char :=
  if n < 10 then Char.ofNat (48 + n) else Char.ofNat (55 + n)

/-- Percent-encoding of one byte, as URLSearchParams produces. -/
def percentEncodeByte (b : Nat) : String :=
  "%" ++ String.singleton (hexDigit (b / 16)) ++ String.singleton (hexDigit (b % 16))

/-- Characters URLSearchParams serialization leaves unchanged
(application/x-www-form-urlencoded): ASCII alphanumerics and * - . _ -/
def formUnreserved (c : Char) : Bool :=
  (decide (97 ≤ c.toNat) && decide (c.toNat ≤ 122)) ||
  (decide (65 ≤ c.toNat) && decide (c.toNat ≤ 90)) ||
  (decide (48 ≤ c.toNat) && decide (c.toNat ≤ 57)) ||
  c == '*' || c == '-' || c == '.' || c == '_'

/-- UTF-8 byte sequence of a code point. -/
def utf8Bytes (n : Nat) : List Nat :=
  if n < 128 then [n]
  else if n < 2048 then [192 + n / 64, 128 + n % 64]
  else if n < 65536 then [224 + n / 4096, 128 + (n / 64) % 64, 128 + n % 64]
  else [240 + n / 262144, 128 + (n / 4096) % 64, 128 + (n / 64) % 64, 128 + n % 64]

/-- Form-urlencoding of one character: unreserved characters unchanged,
space becomes plus, anything else percent-encodes its UTF-8 bytes. -/
def encodeChar (c : Char) : String :=
  if formUnreserved c then String.singleton c
  else if c == ' ' then "+"
  else String.join ((utf8Bytes c.toNat).map percentEncodeByte)

/-- Form-urlencoding of a string, character by character. -/
def formEncode (s : String) : String :=
  String.join (s.toList.map encodeChar)

/-- Serialization of URLSearchParams built from the parameter pairs:
key=value segments joined by ampersands, in insertion order
(URLSearchParams does not sort). -/
def searchParamsToString (ps : List (String × String)) : String :=
  String.intercalate "&" (ps.map (fun p => formEncode p.1 ++ "=" ++ formEncode p.2))

/-- normalizeKey from the core module: a string key is returned verbatim;
a structured key destructures url from the remaining parameters and
returns url ++ "?" ++ URLSearchParams(params).toString(). -/
def normalizeKey : CacheKey → String
  | .str s => s
  | .obj url ps => url ++ "?" ++ searchParamsToString ps

/-- Per-binding configuration after merging with factory defaults:
cacheEnabled models the check options.cache !== false, retryCount models
options.retryCount ?? 0, onData models the optional transform applied to
successful payloads. -/
structure Config (α : Type) where
  cacheEnabled : Bool
  retryCount : Nat
  onData : Option (α → α)

/-- The payload transform of the success path in the bindings:
options.onData applied when present, the raw data otherwise. -/
def applyOnData (cfg : Config α) (d : α) : α :=
  match cfg.onData with
  | some f => f d
  | none => d

/-- The module-level cache, a map from normalized key strings to the
Option value held by the stored AsyncData entry, embedded as an
association list. -/
def Cache (α : Type) : Type := List (String × Option α)

def cacheGet : List (String × Option α) → String → Option (Option α)
  | [], _ => none
  | (k2, v) :: rest, k => if k2 = k then some v else cacheGet rest k

def cacheSet : List (String × Option α) → String → Option α → List (String × Option α)
  | [], k, v => [(k, v)]
  | (k2, w) :: rest, k, v =>
      if k2 = k then (k, v) :: rest else (k2, w) :: cacheSet rest k v

def cacheDelete : List (String × Option α) → String → List (String × Option α)
  | [], _ => []
  | (k2, v) :: rest, k =>
      if k2 = k then cacheDelete rest k else (k2, v) :: cacheDelete rest k

/-- State of one binding instance: the generation counter models the
AbortController chain (each doFetch aborts the previous controller and
installs a fresh one, so a completion callback observes an un-aborted
signal exactly when its own request is still the latest one), state is
the value in the reactive state slot, cache is the shared cache map. -/
structure Machine (α : Type) where
  gen : Nat
  state : AsyncValue α
  cache : List (String × Option α)
deriving DecidableEq

/-- Result of one transport invocation: the promise resolves with an
envelope, or it rejects (the then-chain falls into catch). -/
inductive TransportResult (α : Type) where
  | resolve (r : ApiResponse α)
  | reject (e : ErrorInfo)
deriving DecidableEq

/-- Terminal completion event delivered back to the binding: either the
normalized envelope of the last transport call, or the final rejection
after the retry budget ran out. -/
inductive Completion (α : Type) where
  | envelope (res : ApiResponse α)
  | threw (message : String)
deriving DecidableEq

/-- Synchronous phase of doFetch: abort the previous controller and make
a new one (generation moves forward), then, when caching is enabled and
the cache holds the key, adopt the cached value and stop without issuing
a request (token result none); otherwise set the loading state and issue
a request carrying the new generation as its cancellation token. -/
def startFetch (cfg : Config α) (keyStr : String) (m : Machine α) :
    Machine α × Option Nat :=
  let g := m.gen + 1
  match cacheGet m.cache keyStr with
  | some v =>
      if cfg.cacheEnabled then
        ({ gen := g, state := .data v, cache := m.cache }, none)
      else
        ({ gen := g, state := .loading, cache := m.cache }, some g)
  | none => ({ gen := g, state := .loading, cache := m.cache }, some g)

/-- Completion callback of a request carrying token tok: both the then
and catch handlers first check ctrl.signal.aborted and return without
doing anything when the token no longer matches the current generation;
otherwise a failed envelope sets the error state, a success envelope
applies onData, writes through to the cache when enabled and sets the
data state, and a final rejection sets a NetworkError state. -/
def applyCompletion (cfg : Config α) (keyStr : String) (m : Machine α)
    (tok : Nat) (ev : Completion α) : Machine α :=
  if tok = m.gen then
    match ev with
    | .envelope (.failed e) => { m with state := .error e }
    | .envelope (.success d) =>
        let v := applyOnData cfg d
        { m with
          state := .data (some v)
          cache := if cfg.cacheEnabled then cacheSet m.cache keyStr (some v) else m.cache }
    | .threw msg =>
        { m with state := .error { name := "NetworkError", message := msg, code := none } }
  else m

/-- Outcome of the attempt retry loop run to completion without being
superseded: the final state it sets, the number of transport
invocations it made, and the value written through to the cache when
one was. -/
structure FetchOutcome (α : Type) where
  state : AsyncValue α
  calls : Nat
  cacheWrite : Option α
deriving DecidableEq

/-- The attempt retry loop of doFetch, with the transport modelled as an
oracle from invocation index to result; the recursive call shifts the
oracle by one.  A resolved failed envelope sets the error state with no
retry; a resolved success envelope applies onData and records the cache
write-through; a rejection retries with the budget decremented while any
budget remains, and otherwise sets a NetworkError state. -/
def attempt (cfg : Config α) (tr : Nat → TransportResult α) : Nat → FetchOutcome α
  | 0 =>
      match tr 0 with
      | .resolve (.failed e) => { state := .error e, calls := 1, cacheWrite := none }
      | .resolve (.success d) =>
          let v := applyOnData cfg d
          { state := .data (some v), calls := 1,
            cacheWrite := if cfg.cacheEnabled then some v else none }
      | .reject e =>
          { state := .error { name := "NetworkError", message := e.message, code := none },
            calls := 1, cacheWrite := none }
  | t + 1 =>
      match tr 0 with
      | .resolve (.failed e) => { state := .error e, calls := 1, cacheWrite := none }
      | .resolve (.success d) =>
          let v := applyOnData cfg d
          { state := .data (some v), calls := 1,
            cacheWrite := if cfg.cacheEnabled then some v else none }
      | .reject _ =>
          let o := attempt cfg (fun i => tr (i + 1)) t
          { o with calls := o.calls + 1 }

/-- Transport stub that rejects on the first N invocations and resolves
with a success envelope from then on. -/
def throwsThen (N : Nat) (e : ErrorInfo) (d : α) : Nat → TransportResult α :=
  fun i => if i < N then .reject e else .resolve (.success d)

/-- Full doFetch for a single trigger that runs to completion without a
competing trigger: the synchronous phase, then, when a request was
issued, the attempt loop starting with the budget options.retryCount ?? 0.
Returns the machine after the terminal transition together with the
number of transport invocations. -/
def doFetch (cfg : Config α) (keyStr : String) (tr : Nat → TransportResult α)
    (m : Machine α) : Machine α × Nat :=
  match startFetch cfg keyStr m with
  | (m1, none) => (m1, 0)
  | (m1, some _) =>
      let o := attempt cfg tr cfg.retryCount
      ({ m1 with
          state := o.state
          cache := match o.cacheWrite with
            | some v => cacheSet m1.cache keyStr (some v)
            | none => m1.cache }, o.calls)

/-- The exposed manual trigger fetchFn: it first deletes
normalizeKey(keyStr) from the cache (keyStr is already a normalized
string, and normalizeKey of a string is the string itself) and then
calls doFetch. -/
def fetchFn (cfg : Config α) (keyStr : String) (tr : Nat → TransportResult α)
    (m : Machine α) : Machine α × Nat :=
  doFetch cfg keyStr tr
    { m with cache := cacheDelete m.cache (normalizeKey (.str keyStr)) }

/-- setData of the react binding: the functional state update returns
the previous state unchanged (and writes nothing) unless the previous
state is an AsyncData; on an AsyncData it runs the updater on the held
value (null for None), wraps the result as AsyncData(Some(updated)),
writes through to the cache when caching is enabled, and installs the
new state.  The second component counts transport invocations, which is
always zero: setData never calls the transport.  The updater argument
uses none for the null previous value. -/
def setData (cfg : Config α) (keyStr : String) (updater : Option α → α)
    (m : Machine α) : Machine α × Nat :=
  match m.state with
  | .data v =>
      let updated := updater v
      ({ m with
          state := .data (some updated)
          cache := if cfg.cacheEnabled then cacheSet m.cache keyStr (some updated) else m.cache },
        0)
  | _ => (m, 0)

/-- setData of the vue binding: the current value is the held value when
the state is an AsyncData holding Some, and null otherwise; the updater
runs unconditionally and its result is always installed as
AsyncData(Some(updated)) with a cache write-through when caching is
enabled, even when the previous state was loading or error. -/
def setDataVue (cfg : Config α) (keyStr : String) (updater : Option α → α)
    (m : Machine α) : Machine α × Nat :=
  let current : Option α :=
    match m.state with
    | .data v => v
    | _ => none
  let updated := updater current
  ({ m with
      state := .data (some updated)
      cache := if cfg.cacheEnabled then cacheSet m.cache keyStr (some updated) else m.cache },
    0)

/-- Initial state seeding of useValync: explicit initialData wins
(success as AsyncData(Some(data)), failed as AsyncError(error)); next
the cache entry when caching is enabled and the key is present; and
otherwise AsyncData(None). -/
def initialState (cacheEnabled : Bool) (initialData : Option (ApiResponse α))
    (cache : List (String × Option α)) (keyStr : String) : AsyncValue α :=
  match initialData with
  | some (.success d) => .data (some d)
  | some (.failed e) => .error e
  | none =>
      if cacheEnabled then
        match cacheGet cache keyStr with
        | some v => .data v
        | none => .data none
      else .data none

/-- Lookup of the first entry with the given key in an association list
of header pairs. -/
def lookupH : List (String × String) → String → Option String
  | [], _ => none
  | (k2, v) :: rest, k => if k2 = k then some v else lookupH rest k

/-- JavaScript object spread of two header objects, first a then b:
keys of a keep their position but take the value of b on a key both
hold; keys only in b follow in order. -/
def spreadMerge (a b : List (String × String)) : List (String × String) :=
  a.map (fun p =>
    match lookupH b p.1 with
    | some w => (p.1, w)
    | none => p) ++
  b.filter (fun p => (lookupH a p.1).isNone)

/-- Header merge performed by the bound hook of createValyn:
headers: spread of options.init.headers (per-binding) then
underscore-options.headers (factory defaults). -/
def mergeHookHeaders (bindingHeaders factoryHeaders : List (String × String)) :
    List (String × String) :=
  spreadMerge bindingHeaders factoryHeaders

/-- State of an AsyncObserver: the current value and the registered
listeners, identified by numbers; the JavaScript Set of listeners is a
duplicate-free insertion-ordered collection. -/
structure ObsState (α : Type) where
  current : AsyncValue α
  listeners : List Nat
deriving DecidableEq

/-- Set.add on the listener collection: a no-op when already present,
appended at the end otherwise. -/
def addListener (l : List Nat) (id : Nat) : List Nat :=
  if id ∈ l then l else l ++ [id]

/-- The listen method of AsyncObserver itself: it first invokes the
listener on the current value (one synchronous replay), then registers
it.  Delivery events are returned as listener-id and value pairs. -/
def listenDirect (s : ObsState α) (id : Nat) :
    ObsState α × List (Nat × AsyncValue α) :=
  ({ s with listeners := addListener s.listeners id }, [(id, s.current)])

/-- The listen field of the handle returned by the observer() method,
which is what the binding hands to consumers: it only registers the
listener, with no replay of the current value. -/
def listenViaHandle (s : ObsState α) (id : Nat) :
    ObsState α × List (Nat × AsyncValue α) :=
  ({ s with listeners := addListener s.listeners id }, [])

/-- Unsubscribe: Set.delete of the listener. -/
def unlisten (s : ObsState α) (id : Nat) : ObsState α :=
  { s with listeners := s.listeners.filter (fun x => x ≠ id) }

/-- The set method of AsyncObserver: store the new current value and
notify every registered listener, in registration order. -/
def obsSet (s : ObsState α) (v : AsyncValue α) :
    ObsState α × List (Nat × AsyncValue α) :=
  ({ current := v, listeners := s.listeners },
    s.listeners.map (fun id => (id, v)))

/-- A sequence of state transitions pushed through the observer,
accumulating the delivery events in order. -/
def runSets (s : ObsState α) : List (AsyncValue α) → ObsState α × List (Nat × AsyncValue α)
  | [] => (s, [])
  | v :: vs =>
      let p := obsSet s v
      let q := runSets p.1 vs
      (q.1, p.2 ++ q.2)

/-- The deliveries a given listener receives out of an event list. -/
def deliveriesTo (id : Nat) (evs : List (Nat × AsyncValue α)) :
    List (Nat × AsyncValue α) :=
  evs.filter (fun e => e.1 = id)

/-! Helper lemmas about the embedded operations. -/

theorem cacheGet_cacheDelete (c : List (String × Option α)) (k : String) :
    cacheGet (cacheDelete c k) k = none := by
  induction c with
  | nil => rfl
  | cons p rest ih =>
      obtain ⟨k2, v⟩ := p
      by_cases h : k2 = k
      · simp [cacheDelete, h, ih]
      · simp [cacheDelete, cacheGet, h, ih]

theorem attempt_resolve_failed (cfg : Config α) (tr : Nat → TransportResult α)
    (e : ErrorInfo) (h : tr 0 = .resolve (.failed e)) (tries : Nat) :
    attempt cfg tr tries = { state := .error e, calls := 1, cacheWrite := none } := by
  cases tries <;> simp [attempt, h]

theorem attempt_resolve_success (cfg : Config α) (tr : Nat → TransportResult α)
    (d : α) (h : tr 0 = .resolve (.success d)) (tries : Nat) :
    attempt cfg tr tries
      = { state := .data (some (applyOnData cfg d)), calls := 1,
          cacheWrite := if cfg.cacheEnabled then some (applyOnData cfg d) else none } := by
  cases tries <;> simp [attempt, h]

theorem attempt_calls_pos (cfg : Config α) (tr : Nat → TransportResult α) (tries : Nat) :
    1 ≤ (attempt cfg tr tries).calls := by
  cases tries with
  | zero =>
      cases h : tr 0 with
      | resolve r => cases r <;> simp [attempt, h]
      | reject e => simp [attempt, h]
  | succ t =>
      cases h : tr 0 with
      | resolve r => cases r <;> simp [attempt, h]
      | reject e => simp [attempt, h]

theorem throwsThen_shift (N : Nat) (e : ErrorInfo) (d : α) :
    (fun i => throwsThen (N + 1) e d (i + 1)) = throwsThen N e d := by
  funext i
  simp [throwsThen, Nat.succ_lt_succ_iff]

theorem attempt_throwsThen_succeeds (cfg : Config α) (e : ErrorInfo) (d : α) :
    ∀ N, attempt cfg (throwsThen N e d) N
      = { state := .data (some (applyOnData cfg d)), calls := N + 1,
          cacheWrite := if cfg.cacheEnabled then some (applyOnData cfg d) else none }
  | 0 => by simp [attempt, throwsThen]
  | N + 1 => by
      have hs := throwsThen_shift N e d
      have ih := attempt_throwsThen_succeeds cfg e d N
      have h0 : throwsThen (N + 1) e d 0 = .reject e := by simp [throwsThen]
      simp [attempt, h0, hs, ih]

theorem attempt_throwsThen_exhausts (cfg : Config α) (e : ErrorInfo) (d : α) :
    ∀ N, attempt cfg (throwsThen (N + 1) e d) N
      = { state := .error { name := "NetworkError", message := e.message, code := none },
          calls := N + 1, cacheWrite := none }
  | 0 => by simp [attempt, throwsThen]
  | N + 1 => by
      have hs := throwsThen_shift (N + 1) e d
      have ih := attempt_throwsThen_exhausts cfg e d N
      have h0 : throwsThen (N + 2) e d 0 = .reject e := by simp [throwsThen]
      simp [attempt, h0, hs, ih]

theorem startFetch_miss (cfg : Config α) (k : String) (m : Machine α)
    (hc : cacheGet m.cache k = none) :
    startFetch cfg k m
      = ({ gen := m.gen + 1, state := .loading, cache := m.cache }, some (m.gen + 1)) := by
  simp [startFetch, hc]

theorem startFetch_hit (cfg : Config α) (k : String) (m : Machine α) (v : Option α)
    (hce : cfg.cacheEnabled = true) (hc : cacheGet m.cache k = some v) :
    startFetch cfg k m
      = ({ gen := m.gen + 1, state := .data v, cache := m.cache }, none) := by
  simp [startFetch, hc, hce]

theorem applyCompletion_of_ne (cfg : Config α) (k : String) (m : Machine α)
    (tok : Nat) (ev : Completion α) (h : tok ≠ m.gen) :
    applyCompletion cfg k m tok ev = m := by
  simp [applyCompletion, h]

theorem applyCompletion_gen (cfg : Config α) (k : String) (m : Machine α)
    (tok : Nat) (ev : Completion α) :
    (applyCompletion cfg k m tok ev).gen = m.gen := by
  by_cases h : tok = m.gen
  · cases ev with
    | envelope r => cases r <;> simp [applyCompletion, h]
    | threw msg => simp [applyCompletion, h]
  · simp [applyCompletion, h]

theorem doFetch_miss (cfg : Config α) (k : String) (tr : Nat → TransportResult α)
    (m : Machine α) (hc : cacheGet m.cache k = none) :
    doFetch cfg k tr m
      = ({ gen := m.gen + 1,
            state := (attempt cfg tr cfg.retryCount).state,
            cache := match (attempt cfg tr cfg.retryCount).cacheWrite with
              | some v => cacheSet m.cache k (some v)
              | none => m.cache },
          (attempt cfg tr cfg.retryCount).calls) := by
  simp [doFetch, startFetch_miss cfg k m hc]

theorem doFetch_hit (cfg : Config α) (k : String) (tr : Nat → TransportResult α)
    (m : Machine α) (v : Option α)
    (hce : cfg.cacheEnabled = true) (hc : cacheGet m.cache k = some v) :
    doFetch cfg k tr m
      = ({ gen := m.gen + 1, state := .data v, cache := m.cache }, 0) := by
  simp [doFetch, startFetch_hit cfg k m v hce hc]

theorem lookupH_append (a b : List (String × String)) (k : String) :
    lookupH (a ++ b) k
      = match lookupH a k with
        | some v => some v
        | none => lookupH b k := by
  induction a with
  | nil => simp [lookupH]
  | cons p rest ih =>
      obtain ⟨k2, v⟩ := p
      by_cases h : k2 = k
      · simp [lookupH, h]
      · simp [lookupH, h, ih]

theorem lookupH_mapReplace (b : List (String × String)) :
    ∀ (a : List (String × String)) (k : String),
      lookupH (a.map (fun p =>
          match lookupH b p.1 with
          | some w => (p.1, w)
          | none => p)) k
        = match lookupH a k with
          | none => none
          | some v =>
              match lookupH b k with
              | some w => some w
              | none => some v := by
  intro a
  induction a with
  | nil => intro k; simp [lookupH]
  | cons p rest ih =>
      intro k
      obtain ⟨k2, v2⟩ := p
      by_cases h : k2 = k
      · subst h
        cases hb : lookupH b k2 <;> simp [lookupH, hb]
      · cases hb : lookupH b k2 <;> simp [lookupH, hb, h, ih k]

theorem lookupH_filterAbsent (a : List (String × String)) :
    ∀ (b : List (String × String)) (k : String),
      lookupH (b.filter (fun p => (lookupH a p.1).isNone)) k
        = match lookupH a k with
          | some _ => none
          | none => lookupH b k := by
  intro b
  induction b with
  | nil => intro k; cases h : lookupH a k <;> simp [lookupH, h]
  | cons p rest ih =>
      intro k
      obtain ⟨k2, v2⟩ := p
      by_cases h : k2 = k
      · subst h
        cases ha : lookupH a k2 <;> simp [List.filter, lookupH, ha, ih]
      · cases ha : lookupH a k2 <;> cases ha2 : lookupH a k <;>
          simp_all [List.filter, lookupH, ih]

theorem lookupH_spreadMerge (a b : List (String × String)) (k : String) :
    lookupH (spreadMerge a b) k
      = match lookupH b k with
        | some w => some w
        | none => lookupH a k := by
  unfold spreadMerge
  rw [lookupH_append, lookupH_mapReplace, lookupH_filterAbsent]
  cases ha : lookupH a k <;> cases hb : lookupH b k <;> simp

/-! Observer helper lemmas. -/

theorem deliveriesTo_append (id : Nat) (a b : List (Nat × AsyncValue α)) :
    deliveriesTo id (a ++ b) = deliveriesTo id a ++ deliveriesTo id b := by
  simp [deliveriesTo, List.filter_append]

theorem deliveriesTo_map_not_mem (id : Nat) (l : List Nat) (v : AsyncValue α)
    (h : id ∉ l) :
    deliveriesTo id (l.map (fun j => (j, v))) = [] := by
  induction l with
  | nil => rfl
  | cons j rest ih =>
      simp only [List.mem_cons, not_or] at h
      have hj : ¬ (j = id) := fun hje => h.1 hje.symm
      simp only [deliveriesTo, List.map_cons, List.filter, hj]
      simpa [deliveriesTo] using ih h.2

theorem deliveriesTo_map_once (id : Nat) (l : List Nat) (v : AsyncValue α)
    (hmem : id ∈ l) (hnd : l.Nodup) :
    deliveriesTo id (l.map (fun j => (j, v))) = [(id, v)] := by
  induction l with
  | nil => cases hmem
  | cons j rest ih =>
      rcases List.mem_cons.mp hmem with h | h
      · subst h
        have hnotin : id ∉ rest := (List.nodup_cons.mp hnd).1
        simp only [deliveriesTo, List.map_cons, List.filter]
        simpa [deliveriesTo] using deliveriesTo_map_not_mem id rest v hnotin
      · have hj : ¬ (j = id) := by
          intro hje
          subst hje
          exact (List.nodup_cons.mp hnd).1 h
        simp only [deliveriesTo, List.map_cons, List.filter, hj]
        simpa [deliveriesTo] using ih h (List.nodup_cons.mp hnd).2

theorem runSets_listeners (vs : List (AsyncValue α)) :
    ∀ s : ObsState α, (runSets s vs).1.listeners = s.listeners := by
  induction vs with
  | nil => intro s; rfl
  | cons v rest ih => intro s; simp [runSets, obsSet, ih]

theorem deliveriesTo_runSets (id : Nat) (vs : List (AsyncValue α)) :
    ∀ s : ObsState α, s.listeners.Nodup → id ∈ s.listeners →
      deliveriesTo id (runSets s vs).2 = vs.map (fun v => (id, v)) := by
  induction vs with
  | nil => intro s _ _; rfl
  | cons v rest ih =>
      intro s hnd hmem
      have hset : (obsSet s v).1.listeners = s.listeners := rfl
      simp only [runSets]
      rw [deliveriesTo_append]
      rw [ih (obsSet s v).1 (by rw [hset]; exact hnd) (by rw [hset]; exact hmem)]
      have : deliveriesTo id (obsSet s v).2 = [(id, v)] :=
        deliveriesTo_map_once id s.listeners v hmem hnd
      rw [this]
      rfl

theorem addListener_nodup (l : List Nat) (id : Nat) (h : l.Nodup) :
    (addListener l id).Nodup := by
  unfold addListener
  by_cases hm : id ∈ l
  · simp [hm, h]
  · simp [hm, List.nodup_append, h]

theorem addListener_mem (l : List Nat) (id : Nat) : id ∈ addListener l id := by
  unfold addListener
  by_cases hm : id ∈ l <;> simp [hm]

theorem unlisten_not_mem (s : ObsState α) (id : Nat) :
    id ∉ (unlisten s id).listeners := by
  simp [unlisten, List.mem_filter]

/-! Claim theorems. -/

/-- Claim C10: for every structured descriptor, normalizeKey appends a
question mark separator after the url followed by the encoded
parameters (possibly empty); a structured descriptor holding only a url
normalizes to the url plus a question mark, which is never equal to the
normalization of the plain string key holding the same url, so string
and structured forms of the same url never share a cache entry. -/
theorem c10_structured_key_separator :
    ∀ (u : String) (ps : List (String × String)),
      normalizeKey (.obj u ps) = u ++ "?" ++ searchParamsToString ps
      ∧ normalizeKey (.obj u []) = u ++ "?"
      ∧ normalizeKey (.str u) = u
      ∧ normalizeKey (.str u) ≠ normalizeKey (.obj u []) := by
  intro u ps
  have h2 : normalizeKey (.obj u []) = u ++ "?" := by
    show u ++ "?" ++ searchParamsToString [] = u ++ "?"
    have he : searchParamsToString ([] : List (String × String)) = "" := rfl
    rw [he]
    simp
  refine ⟨rfl, h2, rfl, ?_⟩
  show u ≠ normalizeKey (.obj u [])
  rw [h2]
  intro h
  have hlen := congrArg String.length h
  simp [String.length_append] at hlen
  exact absurd hlen (by decide)

/-- Claim C2 counterexample: two structured descriptors with the same
url and the same set of parameter pairs, inserted in different orders,
normalize to different keys, because URLSearchParams serializes in
insertion order without sorting. -/
theorem c2_counterexample :
    ([(("a" : String), ("1" : String)), ("b", "2")]).Perm [("b", "2"), ("a", "1")]
    ∧ normalizeKey (.obj "u" [("a", "1"), ("b", "2")])
      ≠ normalizeKey (.obj "u" [("b", "2"), ("a", "1")]) := by
  constructor
  · decide
  · decide

/-- Claim C2 amended: normalizeKey is deterministic and depends on the
url and the ordered parameter list: descriptors with the same url and
the same parameter list in the same insertion order normalize to the
same key, and the key is url plus question mark plus the form-encoded
parameters in insertion order; identical parameter sets in different
insertion orders can produce different keys. -/
theorem c2_normalize_order_sensitive :
    (∀ (u : String) (ps1 ps2 : List (String × String)), ps1 = ps2 →
        normalizeKey (.obj u ps1) = normalizeKey (.obj u ps2))
    ∧ (∀ (u : String) (ps : List (String × String)),
        normalizeKey (.obj u ps) = u ++ "?" ++ searchParamsToString ps)
    ∧ ∃ (u : String) (ps1 ps2 : List (String × String)),
        ps1.Perm ps2 ∧ normalizeKey (.obj u ps1) ≠ normalizeKey (.obj u ps2) := by
  refine ⟨?_, ?_, ?_⟩
  · intro u ps1 ps2 h
    rw [h]
  · intro u ps
    rfl
  · exact ⟨"u", [("a", "1"), ("b", "2")], [("b", "2"), ("a", "1")], by decide, by decide⟩

theorem c2_witness :
    normalizeKey (.obj "u" [("a", "1")]) = normalizeKey (.obj "u" [("a", "1")]) :=
  c2_normalize_order_sensitive.1 "u" [("a", "1")] [("a", "1")] rfl

/-- Claim C8 counterexample: with a factory-level default header and a
per-binding header on the same key, the merged headers carry the
factory value, not the per-binding value, because the spread puts the
factory defaults last. -/
theorem c8_counterexample :
    lookupH (mergeHookHeaders [("Authorization", "per-binding")]
        [("Authorization", "factory")]) "Authorization" = some "factory"
    ∧ (some "factory" : Option String) ≠ some "per-binding" := by
  constructor
  · decide
  · decide

/-- Claim C8 amended: the headers sent by a bound hook are the merge,
not the replacement, of per-binding and factory-level headers: a key
present only in one side keeps its value, and on every conflicting key
the factory-level default takes precedence over the per-binding
value. -/
theorem c8_header_merge_factory_precedence :
    ∀ (binding factory : List (String × String)) (k : String),
      lookupH (mergeHookHeaders binding factory) k
        = match lookupH factory k with
          | some w => some w
          | none => lookupH binding k := by
  intro binding factory k
  exact lookupH_spreadMerge binding factory k

/-- Claim C9: the initial state of a binding instance is seeded with
priority initial data first (success as resolved-some, failure as
failed), then the cache entry when caching is enabled and present, and
otherwise resolved-none, so a never-fetched instance with no initial
data reports as resolved with no value, not pending. -/
theorem c9_initial_state_priority :
    ∀ (α : Type) (ce : Bool) (cache : List (String × Option α)) (k : String)
      (d : α) (e : ErrorInfo) (v : Option α),
      initialState ce (some (.success d)) cache k = .data (some d)
      ∧ initialState ce (some (.failed e)) cache k = .error e
      ∧ (cacheGet cache k = some v → initialState true none cache k = .data v)
      ∧ (cacheGet cache k = none → initialState ce none cache k = .data none)
      ∧ initialState false none cache k = .data none := by
  intro α ce cache k d e v
  refine ⟨rfl, rfl, ?_, ?_, rfl⟩
  · intro h
    simp [initialState, h]
  · intro h
    cases ce <;> simp [initialState, h]

theorem c9_witness :
    cacheGet [("k", some 5)] "k" = some (some 5)
    ∧ initialState true none [("k", some (5 : Nat))] "k" = .data (some 5) :=
  ⟨by decide,
    (c9_initial_state_priority Nat true [("k", some 5)] "k" 0 ⟨"E", "m", none⟩ (some 5)).2.2.1
      (by decide)⟩

/-- Claim C5: when the transport resolves with a failed envelope, the
coordinator transitions directly to the failed state carrying exactly
that error, the transport is invoked exactly once regardless of the
configured retry count, and the cache is left unchanged. -/
theorem c5_failed_envelope_no_retry :
    ∀ (α : Type) (cfg : Config α) (k : String) (m : Machine α) (E : ErrorInfo),
      cacheGet m.cache k = none →
      (doFetch cfg k (fun _ => .resolve (.failed E)) m).1.state = .error E
      ∧ (doFetch cfg k (fun _ => .resolve (.failed E)) m).2 = 1
      ∧ (doFetch cfg k (fun _ => .resolve (.failed E)) m).1.cache = m.cache := by
  intro α cfg k m E hc
  have ha := attempt_resolve_failed cfg (fun _ => .resolve (.failed E)) E rfl cfg.retryCount
  rw [doFetch_miss cfg k (fun _ => .resolve (.failed E)) m hc]
  rw [ha]
  exact ⟨rfl, rfl, rfl⟩

theorem c5_witness :
    cacheGet ([] : List (String × Option Nat)) "k" = none
    ∧ (doFetch { cacheEnabled := true, retryCount := 3, onData := none } "k"
          (fun _ => .resolve (.failed
            { name := "ValidationError", message := "bad input", code := some (.num 422) }))
          ({ gen := 0, state := .data none, cache := [] } : Machine Nat)).1.state
        = .error { name := "ValidationError", message := "bad input", code := some (.num 422) } :=
  ⟨rfl,
    (c5_failed_envelope_no_retry Nat
      { cacheEnabled := true, retryCount := 3, onData := none } "k"
      { gen := 0, state := .data none, cache := [] }
      { name := "ValidationError", message := "bad input", code := some (.num 422) }
      rfl).1⟩

/-- Claim C4: with a transport that rejects exactly N times and then
succeeds, a retry budget of N yields a resolved final state after
exactly N plus one transport invocations, and for N at least one a
budget of N minus one yields a failed NetworkError state after exactly
N invocations. -/
theorem c4_retry_count_semantics :
    ∀ (α : Type) (N : Nat) (ce : Bool) (f : Option (α → α)) (k : String)
      (m : Machine α) (e : ErrorInfo) (d : α),
      cacheGet m.cache k = none →
      ((doFetch { cacheEnabled := ce, retryCount := N, onData := f } k
            (throwsThen N e d) m).1.state
          = .data (some (applyOnData { cacheEnabled := ce, retryCount := N, onData := f } d))
        ∧ (doFetch { cacheEnabled := ce, retryCount := N, onData := f } k
            (throwsThen N e d) m).2 = N + 1)
      ∧ (∀ M, N = M + 1 →
          (doFetch { cacheEnabled := ce, retryCount := M, onData := f } k
              (throwsThen N e d) m).1.state
            = .error { name := "NetworkError", message := e.message, code := none }
          ∧ (doFetch { cacheEnabled := ce, retryCount := M, onData := f } k
              (throwsThen N e d) m).2 = N) := by
  intro α N ce f k m e d hc
  constructor
  · have ha := attempt_throwsThen_succeeds
      { cacheEnabled := ce, retryCount := N, onData := f } e d N
    rw [doFetch_miss _ k (throwsThen N e d) m hc]
    rw [ha]
    exact ⟨rfl, rfl⟩
  · intro M hM
    subst hM
    have hb := attempt_throwsThen_exhausts
      { cacheEnabled := ce, retryCount := M, onData := f } e d M
    rw [doFetch_miss _ k (throwsThen (M + 1) e d) m hc]
    rw [hb]
    exact ⟨rfl, rfl⟩

theorem c4_witness :
    cacheGet ([] : List (String × Option Nat)) "k" = none
    ∧ (2 : Nat) = 1 + 1
    ∧ (doFetch { cacheEnabled := true, retryCount := 2, onData := none } "k"
          (throwsThen 2 { name := "E", message := "boom", code := none } 7)
          { gen := 0, state := .data none, cache := [] }).2 = 2 + 1
    ∧ (doFetch { cacheEnabled := true, retryCount := 1, onData := none } "k"
          (throwsThen 2 { name := "E", message := "boom", code := none } 7)
          { gen := 0, state := .data none, cache := [] }).2 = 2 :=
  ⟨rfl, rfl,
    ((c4_retry_count_semantics Nat 2 true none "k"
        { gen := 0, state := .data none, cache := [] }
        { name := "E", message := "boom", code := none } 7 rfl).1).2,
    ((c4_retry_count_semantics Nat 2 true none "k"
        { gen := 0, state := .data none, cache := [] }
        { name := "E", message := "boom", code := none } 7 rfl).2 1 rfl).2⟩

/-- Claim C3 counterexample: with caching enabled and a non-invalidated
cache entry present for the key, a manual refetch through the exposed
trigger function invokes the transport once and installs the freshly
fetched value, instead of being a no-op that adopts the cached value:
the trigger deletes the cache entry itself before fetching. -/
theorem c3_counterexample :
    (fetchFn { cacheEnabled := true, retryCount := 0, onData := none } "k"
        (fun _ => .resolve (.success 7))
        ({ gen := 0, state := .data (some 5), cache := [("k", some 5)] } : Machine Nat)).2 = 1
    ∧ (fetchFn { cacheEnabled := true, retryCount := 0, onData := none } "k"
        (fun _ => .resolve (.success 7))
        ({ gen := 0, state := .data (some 5), cache := [("k", some 5)] } : Machine Nat)).1.state
      = .data (some 7)
    ∧ (1 : Nat) ≠ 0
    ∧ AsyncValue.data (some (7 : Nat)) ≠ .data (some 5) := by
  refine ⟨by decide, by decide, by decide, by decide⟩

/-- Claim C3 amended: when caching is enabled and a cache entry exists
for the key, a doFetch trigger (mount, watch, interval) adopts the
cached value as current state without invoking the transport and
without touching the cache; the exposed manual refetch, however, first
deletes the cache entry for the key and then always runs doFetch on the
evicted cache, so it invokes the transport at least once rather than
being a no-op. -/
theorem c3_cache_short_circuit_refetch_evicts :
    ∀ (α : Type) (cfg : Config α) (k : String) (tr : Nat → TransportResult α)
      (m : Machine α) (v : Option α),
      (cfg.cacheEnabled = true → cacheGet m.cache k = some v →
        (doFetch cfg k tr m).1.state = .data v
        ∧ (doFetch cfg k tr m).2 = 0
        ∧ (doFetch cfg k tr m).1.cache = m.cache)
      ∧ fetchFn cfg k tr m = doFetch cfg k tr { m with cache := cacheDelete m.cache k }
      ∧ 1 ≤ (fetchFn cfg k tr m).2 := by
  intro α cfg k tr m v
  refine ⟨?_, rfl, ?_⟩
  · intro hce hc
    rw [doFetch_hit cfg k tr m v hce hc]
    exact ⟨rfl, rfl, rfl⟩
  · have hdel : cacheGet (cacheDelete m.cache k) k = none := cacheGet_cacheDelete m.cache k
    have heq : fetchFn cfg k tr m
        = doFetch cfg k tr { m with cache := cacheDelete m.cache k } := rfl
    rw [heq, doFetch_miss cfg k tr _ hdel]
    exact attempt_calls_pos cfg tr cfg.retryCount

theorem c3_witness :
    ({ cacheEnabled := true, retryCount := 0, onData := none } : Config Nat).cacheEnabled = true
    ∧ cacheGet [("k", some (5 : Nat))] "k" = some (some 5)
    ∧ (doFetch { cacheEnabled := true, retryCount := 0, onData := none } "k"
          (fun _ => .resolve (.success 7))
          ({ gen := 0, state := .data none, cache := [("k", some 5)] } : Machine Nat)).2 = 0 :=
  ⟨rfl, rfl,
    ((c3_cache_short_circuit_refetch_evicts Nat
        { cacheEnabled := true, retryCount := 0, onData := none } "k"
        (fun _ => .resolve (.success 7))
        { gen := 0, state := .data none, cache := [("k", some 5)] }
        (some 5)).1 rfl rfl).2.1⟩

/-- Claim C6 counterexample: in the vue binding cited by the claim,
setData applied while the state is pending is not a no-op: the updater
runs with a null previous value and its result is installed as the
resolved state. -/
theorem c6_counterexample :
    (setDataVue { cacheEnabled := true, retryCount := 0, onData := none } "k"
        (fun _ => (6 : Nat))
        { gen := 0, state := .loading, cache := [] }).1.state
      = .data (some 6)
    ∧ AsyncValue.data (some (6 : Nat)) ≠ .loading := by
  exact ⟨rfl, by decide⟩

/-- Claim C6 amended: setData on a resolved-some state installs
resolved-some of the updated value and writes it through to the cache
when caching is enabled, and it never invokes the transport; in the
react binding setData on a pending or failed state is a no-op, but in
the vue binding setData on a pending state runs the updater with a null
previous value and installs its result as the resolved state. -/
theorem c6_setData_semantics :
    ∀ (α : Type) (cfg : Config α) (k : String) (up : Option α → α)
      (m : Machine α) (v : α) (e : ErrorInfo),
      (m.state = .data (some v) →
        (setData cfg k up m).1.state = .data (some (up (some v)))
        ∧ (cfg.cacheEnabled = true →
            (setData cfg k up m).1.cache = cacheSet m.cache k (some (up (some v)))))
      ∧ (m.state = .loading → (setData cfg k up m).1 = m)
      ∧ (m.state = .error e → (setData cfg k up m).1 = m)
      ∧ (setData cfg k up m).2 = 0
      ∧ (m.state = .loading → (setDataVue cfg k up m).1.state = .data (some (up none)))
      ∧ (setDataVue cfg k up m).2 = 0 := by
  intro α cfg k up m v e
  refine ⟨?_, ?_, ?_, ?_, ?_, rfl⟩
  · intro h
    constructor
    · simp [setData, h]
    · intro hce
      simp [setData, h, hce]
  · intro h
    simp [setData, h]
  · intro h
    simp [setData, h]
  · cases hs : m.state <;> simp [setData, hs]
  · intro h
    simp [setDataVue, h]

theorem c6_witness :
    ({ gen := 0, state := AsyncValue.data (some (5 : Nat)), cache := [] } : Machine Nat).state
        = .data (some 5)
    ∧ (setData { cacheEnabled := true, retryCount := 0, onData := none } "k"
          (fun p => match p with | some n => n + 1 | none => 0)
          ({ gen := 0, state := .data (some 5), cache := [] } : Machine Nat)).1.state
        = .data (some 6) :=
  ⟨rfl,
    ((c6_setData_semantics Nat { cacheEnabled := true, retryCount := 0, onData := none } "k"
        (fun p => match p with | some n => n + 1 | none => 0)
        { gen := 0, state := .data (some 5), cache := [] } 5 ⟨"E", "m", none⟩).1 rfl).1⟩

/-- Claim C7 counterexample: subscribing through the observer handle the
binding returns (the listen field built by the observer method) does
not deliver the current state on subscribe: the immediate delivery list
is empty, not a single replay of the current state. -/
theorem c7_counterexample :
    (listenViaHandle ({ current := .data (some 5), listeners := [] } : ObsState Nat) 0).2 = []
    ∧ ([] : List (Nat × AsyncValue Nat)) ≠ [(0, .data (some 5))] := by
  exact ⟨rfl, by decide⟩

/-- Claim C7 amended: the listen method of AsyncObserver itself replays
the current state to the new listener exactly once, synchronously; the
observer handle the binding actually returns registers the listener
without any replay; in both cases, after subscribing, every subsequent
transition is delivered to the listener exactly once and in order, and
after unsubscribing a transition delivers nothing to that listener. -/
theorem c7_observer_semantics :
    ∀ (α : Type) (s : ObsState α) (id : Nat) (vs : List (AsyncValue α)) (v : AsyncValue α),
      (listenDirect s id).2 = [(id, s.current)]
      ∧ (listenViaHandle s id).2 = []
      ∧ (s.listeners.Nodup →
          deliveriesTo id (runSets (listenViaHandle s id).1 vs).2 = vs.map (fun w => (id, w)))
      ∧ deliveriesTo id (obsSet (unlisten s id) v).2 = [] := by
  intro α s id vs v
  refine ⟨rfl, rfl, ?_, ?_⟩
  · intro hnd
    exact deliveriesTo_runSets id vs (listenViaHandle s id).1
      (addListener_nodup s.listeners id hnd) (addListener_mem s.listeners id)
  · exact deliveriesTo_map_not_mem id (unlisten s id).listeners v (unlisten_not_mem s id)

theorem c7_witness :
    (([] : List Nat).Nodup)
    ∧ deliveriesTo 0 (runSets
          (listenViaHandle ({ current := .loading, listeners := [] } : ObsState Nat) 0).1
          [.data (some 1), .loading]).2
        = [(0, .data (some 1)), (0, .loading)] :=
  ⟨List.nodup_nil,
    (c7_observer_semantics Nat { current := .loading, listeners := [] } 0
        [.data (some 1), .loading] .loading).2.2.1 List.nodup_nil⟩

/-- Claim C1: a completion whose cancellation token no longer matches
the current generation (the request was superseded by a newer trigger)
is discarded entirely, leaving the machine unchanged: no state
transition and no cache write; and in the two-trigger scenario, issuing
a second trigger before the first completes means the final state is
the outcome of the second request whichever order the two completions
arrive in, because the first request carries a stale token. -/
theorem c1_stale_completion_discarded :
    (∀ (α : Type) (cfg : Config α) (k : String) (m : Machine α)
        (tok : Nat) (ev : Completion α),
        tok ≠ m.gen → applyCompletion cfg k m tok ev = m)
    ∧ (∀ (α : Type) (cfg : Config α) (k : String) (m : Machine α)
        (e1 e2 : Completion α),
        cacheGet m.cache k = none →
        (startFetch cfg k m).2 = some (m.gen + 1)
        ∧ (startFetch cfg k (startFetch cfg k m).1).2 = some (m.gen + 2)
        ∧ applyCompletion cfg k
            (applyCompletion cfg k (startFetch cfg k (startFetch cfg k m).1).1
              (m.gen + 1) e1)
            (m.gen + 2) e2
          = applyCompletion cfg k (startFetch cfg k (startFetch cfg k m).1).1
              (m.gen + 2) e2
        ∧ applyCompletion cfg k
            (applyCompletion cfg k (startFetch cfg k (startFetch cfg k m).1).1
              (m.gen + 2) e2)
            (m.gen + 1) e1
          = applyCompletion cfg k (startFetch cfg k (startFetch cfg k m).1).1
              (m.gen + 2) e2) := by
  constructor
  · intro α cfg k m tok ev h
    exact applyCompletion_of_ne cfg k m tok ev h
  · intro α cfg k m e1 e2 hc
    have h1 := startFetch_miss cfg k m hc
    have hm1 : (startFetch cfg k m).1
        = { gen := m.gen + 1, state := .loading, cache := m.cache } := by rw [h1]
    have hc1 : cacheGet ((startFetch cfg k m).1).cache k = none := by
      rw [hm1]
      exact hc
    have h2 := startFetch_miss cfg k (startFetch cfg k m).1 hc1
    have hg1 : ((startFetch cfg k m).1).gen = m.gen + 1 := by rw [hm1]
    have hm2g : (startFetch cfg k (startFetch cfg k m).1).1.gen = m.gen + 2 := by
      rw [h2]
      simp [hg1]
    have hinner : applyCompletion cfg k (startFetch cfg k (startFetch cfg k m).1).1
        (m.gen + 1) e1 = (startFetch cfg k (startFetch cfg k m).1).1 := by
      apply applyCompletion_of_ne
      rw [hm2g]
      omega
    have hgenpres : (applyCompletion cfg k (startFetch cfg k (startFetch cfg k m).1).1
        (m.gen + 2) e2).gen = m.gen + 2 := by
      rw [applyCompletion_gen]
      exact hm2g
    refine ⟨?_, ?_, ?_, ?_⟩
    · rw [h1]
    · rw [h2]
      rw [hg1]
    · rw [hinner]
    · apply applyCompletion_of_ne
      rw [hgenpres]
      omega

theorem c1_witness :
    ((3 : Nat) ≠ 5
      ∧ applyCompletion { cacheEnabled := true, retryCount := 0, onData := none } "k"
          ({ gen := 5, state := .loading, cache := [] } : Machine Nat) 3
          (.envelope (.success 7))
        = { gen := 5, state := .loading, cache := [] })
    ∧ (cacheGet ([] : List (String × Option Nat)) "k" = none
      ∧ applyCompletion { cacheEnabled := true, retryCount := 0, onData := none } "k"
          (applyCompletion { cacheEnabled := true, retryCount := 0, onData := none } "k"
            (startFetch { cacheEnabled := true, retryCount := 0, onData := none } "k"
              (startFetch { cacheEnabled := true, retryCount := 0, onData := none } "k"
                ({ gen := 0, state := .data none, cache := [] } : Machine Nat)).1).1
            1 (.envelope (.success 1)))
          2 (.envelope (.success 2))
        = applyCompletion { cacheEnabled := true, retryCount := 0, onData := none } "k"
            (startFetch { cacheEnabled := true, retryCount := 0, onData := none } "k"
              (startFetch { cacheEnabled := true, retryCount := 0, onData := none } "k"
                ({ gen := 0, state := .data none, cache := [] } : Machine Nat)).1).1
            2 (.envelope (.success 2))) :=
  ⟨⟨by decide,
      c1_stale_completion_discarded.1 Nat
        { cacheEnabled := true, retryCount := 0, onData := none } "k"
        { gen := 5, state := .loading, cache := [] } 3
        (.envelope (.success 7)) (by decide)⟩,
    ⟨rfl,
      (c1_stale_completion_discarded.2 Nat
        { cacheEnabled := true, retryCount := 0, onData := none } "k"
        { gen := 0, state := .data none, cache := [] }
        (.envelope (.success 1)) (.envelope (.success 2)) rfl).2.2.1⟩⟩

end Valync
